import Mathlib

/-!
# Verification of the luminix viewport compositor and GIF frame scheduler

Shallow embedding of the image-transform pipeline in `src/main.rs`
(`calculate_max_buffer_size`, `pad_img`, `pad_img_sides`, `pan_img`,
`fast_crop`, `zoom_img`, `fast_resize_photon_img`, the `RedrawRequested`
compositing sequence, the `CursorMoved` pan-offset update, and
`gif_next_frame` / `gif_prev_frame`).

Modelling conventions:
* A `PhotonImage` (a flat RGBA8 buffer with a width and a height) is
  modelled functionally as a `Raster`: a width, a height, and a total
  pixel function.  Buffer operations that copy rows into a fresh
  zero-initialised buffer (`pad_img_sides`) become the corresponding
  piecewise pixel function; region extraction (`fast_crop`, which calls
  the resizer with equal source-crop and destination sizes, i.e. a pure
  copy of the cropped region) becomes index translation.
* Rust `u32` values become `ℕ`; `u32` subtraction appears only where the
  source guarantees no underflow and is modelled by truncated `ℕ`
  subtraction.  Rust `i32` values become `ℤ`.
* `f32`/`f64` arithmetic — which the source applies only to values
  obtained from `u32` dimensions and small literals — is modelled by
  exact rational arithmetic, and the `as u32` cast of a nonnegative
  float by `floatToU32` (truncation toward zero; negative values clamp
  to zero, as the saturating Rust cast does).
* Wall-clock instants and durations are modelled in whole milliseconds
  as `ℕ`.
-/

namespace Luminix

/-- One RGBA8 pixel (each channel a byte value). -/
structure Rgba where
  r : ℕ
  g : ℕ
  b : ℕ
  a : ℕ
deriving DecidableEq

/-- The fully transparent pixel: all four RGBA bytes are zero. -/
def transparent : Rgba := ⟨0, 0, 0, 0⟩

/-- Functional model of a `PhotonImage`: dimensions plus a pixel map. -/
@[ext]
structure Raster where
  width : ℕ
  height : ℕ
  pix : ℕ → ℕ → Rgba

/-- The `Size` struct of `main.rs` (`width`/`height` as `u32`). -/
structure Size where
  width : ℕ
  height : ℕ
deriving DecidableEq

/-- The `PanningData` struct of `main.rs`: the "actively panning" flag,
the signed 2-D pan offset, and the signed zoom level. -/
structure PanningData where
  panning : Bool
  pan_offset_x : ℤ
  pan_offset_y : ℤ
  zoom_level : ℤ

/-- Rust `as u32` applied to a nonnegative float: truncation toward
zero (`Int.toNat` also reproduces the saturation of negatives to 0). -/
def floatToU32 (q : ℚ) : ℕ := ⌊q⌋.toNat

/-- Rust `u32::div_ceil`. -/
def u32_div_ceil (a b : ℕ) : ℕ := (a + b - 1) / b

/-- `calculate_max_buffer_size` from `main.rs` (aspect fit): the float
ratio comparison and the truncating `as u32` casts are modelled over ℚ. -/
def calculate_max_buffer_size (window_width window_height : ℕ) (img_size : Size) : Size :=
  let window_width_f : ℚ := window_width
  let window_height_f : ℚ := window_height
  let img_width_f : ℚ := img_size.width
  let img_height_f : ℚ := img_size.height
  if img_size.width = 0 ∨ img_size.height = 0 then
    -- Avoid division by zero
    ⟨window_width, window_height⟩
  else if img_width_f / img_height_f < window_width_f / window_height_f then
    let aspect := img_width_f / img_height_f
    let new_width := floatToU32 (aspect * window_height_f)
    if new_width = 0 then ⟨window_width, window_height⟩
    else ⟨new_width, window_height⟩
  else if img_width_f / img_height_f > window_width_f / window_height_f then
    let aspect := img_height_f / img_width_f
    let new_height := floatToU32 (aspect * window_width_f)
    if new_height = 0 then ⟨window_width, window_height⟩
    else ⟨window_width, new_height⟩
  else
    ⟨window_width, window_height⟩

/-- `pad_img_sides` from `main.rs`: a fresh buffer of transparent
(all-zero) pixels with the source rows copied at offset
(`pad_left`, `pad_top`), expressed as a pixel function. -/
def pad_img_sides (img : Raster) (pad_left pad_right pad_top pad_bottom : ℕ) : Raster :=
  { width := img.width + pad_left + pad_right
    height := img.height + pad_top + pad_bottom
    pix := fun x y =>
      if pad_left ≤ x ∧ x < pad_left + img.width ∧ pad_top ≤ y ∧ y < pad_top + img.height then
        img.pix (x - pad_left) (y - pad_top)
      else transparent }

/-- `pad_img` from `main.rs`: letterbox `img` to `new_size`, splitting
each total pad `div_ceil 2` on the left/top and `div 2` on the
right/bottom. -/
def pad_img (img : Raster) (new_size : Size) : Raster :=
  let total_pad_vertical := new_size.height - img.height
  let total_pad_horizontal := new_size.width - img.width
  let pad_left := if total_pad_horizontal ≠ 0 then u32_div_ceil total_pad_horizontal 2 else 0
  let pad_right := if total_pad_horizontal ≠ 0 then total_pad_horizontal / 2 else 0
  let pad_top := if total_pad_vertical ≠ 0 then u32_div_ceil total_pad_vertical 2 else 0
  let pad_bottom := if total_pad_vertical ≠ 0 then total_pad_vertical / 2 else 0
  pad_img_sides img pad_left pad_right pad_top pad_bottom

/-- `fast_crop` from `main.rs`: extract the region
`[neg_x, pos_x) × [neg_y, pos_y)` (the resizer is called with the crop
region equal to the destination size, so it is a plain region copy). -/
def fast_crop (img : Raster) (pos_x pos_y neg_x neg_y : ℕ) : Raster :=
  { width := pos_x - neg_x
    height := pos_y - neg_y
    pix := fun x y => img.pix (x + neg_x) (y + neg_y) }

/-- `fast_resize_photon_img` from `main.rs`: nearest-neighbor resampling
to `new_img_size` (modelled with the standard truncating index map). -/
def fast_resize_photon_img (img : Raster) (new_img_size : Size) : Raster :=
  { width := new_img_size.width
    height := new_img_size.height
    pix := fun x y =>
      img.pix (x * img.width / new_img_size.width) (y * img.height / new_img_size.height) }

/-- `pan_img` from `main.rs`: per-axis crop of the source plus
transparent padding on the opposite edge, driven by the sign of the
pan offset (`is_positive`). -/
def pan_img (img : Raster) (panning_data : PanningData) : Raster :=
  let pan_offset_x := panning_data.pan_offset_x
  let pan_offset_y := panning_data.pan_offset_y
  let pan_offset_x_abs := pan_offset_x.natAbs
  let pan_offset_y_abs := pan_offset_y.natAbs
  if pan_offset_x = 0 ∧ pan_offset_y = 0 then
    img
  else
    -- width cropping
    let pos_x := if 0 < pan_offset_x then img.width - pan_offset_x_abs else img.width
    let neg_x := if 0 < pan_offset_x then 0 else pan_offset_x_abs
    let pad_left := if 0 < pan_offset_x then pan_offset_x_abs else 0
    let pad_right := if 0 < pan_offset_x then 0 else pan_offset_x_abs
    -- height cropping
    let pos_y := if 0 < pan_offset_y then img.height - pan_offset_y_abs else img.height
    let neg_y := if 0 < pan_offset_y then 0 else pan_offset_y_abs
    let pad_top := if 0 < pan_offset_y then pan_offset_y_abs else 0
    let pad_bottom := if 0 < pan_offset_y then 0 else pan_offset_y_abs
    let cropped_img := fast_crop img pos_x pos_y neg_x neg_y
    pad_img_sides cropped_img pad_left pad_right pad_top pad_bottom

/-- `zoom_img` from `main.rs`.  Zooming in (positive level) uses the
aspect-preserving area-ratio crop that is live in the source; zooming
out (level ≤ 0) pads `zoom_constant` (truncated) on all four sides.
All `f32` arithmetic is modelled over ℚ. -/
def zoom_img (img : Raster) (panning_data : PanningData) : Raster :=
  let zoom_level := panning_data.zoom_level
  -- zoom level should be so that 10 zooms gets you to around one pixel
  let zoom_level_multiplier : ℚ :=
    if img.height > img.width then (img.width : ℚ) / 10 else (img.height : ℚ) / 10
  let zoom_constant : ℚ := (zoom_level.natAbs : ℚ) * zoom_level_multiplier / 2
  if 0 < zoom_level then
    let zr : ℚ := (zoom_level : ℚ) / 10
    let cr : ℚ := 0.8 * zr
    let aspect : ℚ := (img.width : ℚ) / (img.height : ℚ)
    let base_crop_width : ℚ := (img.width : ℚ) * cr
    let base_crop_height : ℚ := (img.height : ℚ) * cr
    -- adjust one dimension to maintain aspect ratio
    let crop_width : ℚ :=
      if 1 ≤ aspect then ((img.height : ℚ) - base_crop_height) * aspect
      else (img.width : ℚ) - base_crop_width
    let crop_height : ℚ :=
      if 1 ≤ aspect then (img.height : ℚ) - base_crop_height
      else ((img.width : ℚ) - base_crop_width) / aspect
    let center_x : ℚ := (img.width : ℚ) / 2
    let center_y : ℚ := (img.height : ℚ) / 2
    let x0 := max (center_x - crop_width / 2) 0
    let y0 := max (center_y - crop_height / 2) 0
    let x1 := min (x0 + crop_width) (img.width : ℚ)
    let y1 := min (y0 + crop_height) (img.height : ℚ)
    fast_crop img (floatToU32 x1) (floatToU32 y1) (floatToU32 x0) (floatToU32 y0)
  else
    let pad_top := floatToU32 zoom_constant
    let pad_bottom := floatToU32 zoom_constant
    let pad_left := floatToU32 zoom_constant
    let pad_right := floatToU32 zoom_constant
    pad_img_sides img pad_left pad_right pad_top pad_bottom

/-- The per-frame compositing sequence of the `RedrawRequested` handler
in `main.rs`: degenerate-window guard, zoom/pan in the order selected
by the zoom sign, aspect fit, nearest-neighbor resize, letterbox pad.
`none` models the early `return` (no buffer is presented). -/
def composite (window_size : Size) (img : Raster) (panning_data : PanningData) : Option Raster :=
  if window_size.width = 0 ∨ window_size.height = 0 then
    none
  else
    let middle_img :=
      if panning_data.zoom_level ≤ 0 then
        -- if zoomed out, perform the zooming then the panning
        pan_img (zoom_img img panning_data) panning_data
      else
        zoom_img (pan_img img panning_data) panning_data
    let new_img_size :=
      calculate_max_buffer_size window_size.width window_size.height
        ⟨middle_img.width, middle_img.height⟩
    let resized_img := fast_resize_photon_img middle_img new_img_size
    some (pad_img resized_img window_size)

/-- The pan-offset update of the `CursorMoved` handler in `main.rs`:
each component of the incoming delta is applied only if the resulting
component magnitude stays strictly below the image dimension. -/
def cursor_moved_update (pan_offset : ℤ × ℤ) (offset : ℤ × ℤ)
    (img_width img_height : ℕ) : ℤ × ℤ :=
  ( if (pan_offset.1 + offset.1).natAbs < img_width then pan_offset.1 + offset.1
    else pan_offset.1,
    if (pan_offset.2 + offset.2).natAbs < img_height then pan_offset.2 + offset.2
    else pan_offset.2 )

/-- The `GifData` struct of `main.rs`: one decoded frame plus its delay,
the delay kept as the numerator/denominator pair that
`Delay::numer_denom_ms` returns. -/
structure GifData where
  frame : Raster
  delay_numer : ℕ
  delay_denom : ℕ

/-- Placeholder for the (never reached under the in-range index
invariant) out-of-bounds indexing result. -/
def defaultGifData : GifData := ⟨⟨0, 0, fun _ _ => transparent⟩, 0, 1⟩

/-- The GIF-playback fields of the `App` struct of `main.rs`
(`next_frame_time` in whole milliseconds). -/
structure App where
  img : Raster
  gif_frames : List GifData
  current_frame_index : ℕ
  next_frame_time : ℕ

/-- `App::gif_next_frame` from `main.rs`: display the frame at the
current index, step the index forward modulo the frame count, and set
the deadline to `now` plus the new frame's delay in whole milliseconds
(truncating division of the delay's numerator by its denominator). -/
def gif_next_frame (app : App) (now : ℕ) : App :=
  let current_frame := app.gif_frames.getD app.current_frame_index defaultGifData
  let new_index := (app.current_frame_index + 1) % app.gif_frames.length
  let next_gif := app.gif_frames.getD new_index defaultGifData
  { app with
      img := current_frame.frame
      current_frame_index := new_index
      next_frame_time := now + next_gif.delay_numer / next_gif.delay_denom }

/-- `App::gif_prev_frame` from `main.rs`: display the frame at the
current index, step the index backward with wraparound from 0 to
`length − 1`, and set the deadline from the new frame's delay. -/
def gif_prev_frame (app : App) (now : ℕ) : App :=
  let current_frame := app.gif_frames.getD app.current_frame_index defaultGifData
  let new_index :=
    if 0 < app.current_frame_index then app.current_frame_index - 1
    else app.gif_frames.length - 1
  let next_gif := app.gif_frames.getD new_index defaultGifData
  { app with
      img := current_frame.frame
      current_frame_index := new_index
      next_frame_time := now + next_gif.delay_numer / next_gif.delay_denom }

/-- An all-opaque-white test raster. -/
def whiteImg (w h : ℕ) : Raster := ⟨w, h, fun _ _ => ⟨255, 255, 255, 255⟩⟩

/-- Interaction state with no pan and no zoom. -/
def pdZero : PanningData := ⟨false, 0, 0, 0⟩

/-- Interaction state with no pan and the given zoom level. -/
def pdz (level : ℤ) : PanningData := ⟨false, 0, 0, level⟩

/-- A concrete three-frame animation state (frames 1×1, 2×2, 3×3 with
delays 100/1, 50/2, 7/3 ms) at index 0. -/
def appABC : App :=
  ⟨whiteImg 1 1, [⟨whiteImg 1 1, 100, 1⟩, ⟨whiteImg 2 2, 50, 2⟩, ⟨whiteImg 3 3, 7, 3⟩], 0, 0⟩

/-- C10: a window with zero width or zero height makes the redraw
handler return before any pipeline stage runs, so no output buffer is
produced for that frame. -/
theorem c10_degenerate_window (window : Size) (img : Raster) (pd : PanningData)
    (h : window.width = 0 ∨ window.height = 0) :
    composite window img pd = none := by
  unfold composite
  exact if_pos h

theorem c10_degenerate_window_witness :
    ((0 : ℕ) = 0 ∨ (7 : ℕ) = 0) ∧ composite ⟨0, 7⟩ (whiteImg 3 3) pdZero = none :=
  ⟨Or.inl rfl, c10_degenerate_window ⟨0, 7⟩ (whiteImg 3 3) pdZero (Or.inl rfl)⟩

/-- C8: the cursor-moved update keeps `|offset.x| < image.width` and
`|offset.y| < image.height`: a component of the incoming delta is
applied exactly when the resulting component still satisfies its bound,
and otherwise that component is left completely unchanged (silent
rejection, never clamping to the boundary). -/
theorem c8_pan_bound_invariant (pan_offset offset : ℤ × ℤ) (img_width img_height : ℕ)
    (hx : pan_offset.1.natAbs < img_width) (hy : pan_offset.2.natAbs < img_height) :
    ((cursor_moved_update pan_offset offset img_width img_height).1.natAbs < img_width ∧
      (cursor_moved_update pan_offset offset img_width img_height).2.natAbs < img_height) ∧
    ((pan_offset.1 + offset.1).natAbs < img_width →
      (cursor_moved_update pan_offset offset img_width img_height).1
        = pan_offset.1 + offset.1) ∧
    (img_width ≤ (pan_offset.1 + offset.1).natAbs →
      (cursor_moved_update pan_offset offset img_width img_height).1 = pan_offset.1) ∧
    ((pan_offset.2 + offset.2).natAbs < img_height →
      (cursor_moved_update pan_offset offset img_width img_height).2
        = pan_offset.2 + offset.2) ∧
    (img_height ≤ (pan_offset.2 + offset.2).natAbs →
      (cursor_moved_update pan_offset offset img_width img_height).2 = pan_offset.2) := by
  unfold cursor_moved_update
  refine ⟨⟨?_, ?_⟩, ?_, ?_, ?_, ?_⟩ <;> dsimp only <;> split <;> omega

theorem c8_pan_bound_invariant_witness :
    ((2 : ℤ).natAbs < 5 ∧ (1 : ℤ).natAbs < 4) ∧
    (cursor_moved_update (2, 1) (100, 2) 5 4).1 = 2 :=
  ⟨⟨by decide, by decide⟩,
    (c8_pan_bound_invariant (2, 1) (100, 2) 5 4 (by decide) (by decide)).2.2.1 (by decide)⟩

/-- C5: advancing the animation displays the frame at the current
index, then steps the index by +1 modulo the frame count (forward) or
by −1 with wraparound from 0 to `length − 1` (backward), and sets the
next deadline to `now` plus the new index's delay converted to whole
milliseconds by truncating division of its numerator by its
denominator; in a 3-frame sequence three forward advances from index 0
return to index 0, and one backward advance from index 0 yields 2. -/
theorem c5_frame_advance (app : App) (now t1 t2 t3 : ℕ)
    (_hne : app.gif_frames ≠ []) :
    ((gif_next_frame app now).img
        = (app.gif_frames.getD app.current_frame_index defaultGifData).frame ∧
      (gif_next_frame app now).current_frame_index
        = (app.current_frame_index + 1) % app.gif_frames.length ∧
      (gif_next_frame app now).next_frame_time
        = now +
          (app.gif_frames.getD ((app.current_frame_index + 1) % app.gif_frames.length)
              defaultGifData).delay_numer /
            (app.gif_frames.getD ((app.current_frame_index + 1) % app.gif_frames.length)
              defaultGifData).delay_denom) ∧
    ((gif_prev_frame app now).img
        = (app.gif_frames.getD app.current_frame_index defaultGifData).frame ∧
      (gif_prev_frame app now).current_frame_index
        = (if 0 < app.current_frame_index then app.current_frame_index - 1
           else app.gif_frames.length - 1) ∧
      (gif_prev_frame app now).next_frame_time
        = now +
          (app.gif_frames.getD
              (if 0 < app.current_frame_index then app.current_frame_index - 1
               else app.gif_frames.length - 1) defaultGifData).delay_numer /
            (app.gif_frames.getD
              (if 0 < app.current_frame_index then app.current_frame_index - 1
               else app.gif_frames.length - 1) defaultGifData).delay_denom) ∧
    (app.gif_frames.length = 3 → app.current_frame_index = 0 →
      (gif_next_frame (gif_next_frame (gif_next_frame app t1) t2) t3).current_frame_index
          = 0 ∧
      (gif_prev_frame app now).current_frame_index = 2) := by
  refine ⟨⟨rfl, rfl, rfl⟩, ⟨rfl, rfl, rfl⟩, fun hlen hidx => ⟨?_, ?_⟩⟩
  · simp [gif_next_frame, hlen, hidx]
  · simp [gif_prev_frame, hlen, hidx]

theorem c5_frame_advance_witness :
    appABC.gif_frames ≠ [] ∧
    (gif_next_frame (gif_next_frame (gif_next_frame appABC 5) 6) 7).current_frame_index = 0 ∧
    (gif_prev_frame appABC 9).current_frame_index = 2 :=
  ⟨by simp [appABC],
    ((c5_frame_advance appABC 9 5 6 7 (by simp [appABC])).2.2 rfl rfl).1,
    ((c5_frame_advance appABC 9 5 6 7 (by simp [appABC])).2.2 rfl rfl).2⟩

/-- C2: the aspect-fit function returns the window unchanged when an
image dimension is 0; `{truncate(window.height × image.width /
image.height), window.height}` when the image ratio is below the
window ratio; `{window.width, truncate(window.width × image.height /
image.width)}` when it is above; the window unchanged when the ratios
are equal; and the window unchanged whenever the computed dimension
truncates to 0.  The truncation (`floatToU32`) is toward zero. -/
theorem c2_aspect_fit (window_width window_height img_width img_height : ℕ)
    (_hww : 0 < window_width) (_hwh : 0 < window_height) :
    (img_width = 0 ∨ img_height = 0 →
      calculate_max_buffer_size window_width window_height ⟨img_width, img_height⟩
        = ⟨window_width, window_height⟩) ∧
    (0 < img_width → 0 < img_height →
      (((img_width : ℚ) / img_height < (window_width : ℚ) / window_height →
        calculate_max_buffer_size window_width window_height ⟨img_width, img_height⟩
          = if floatToU32 ((window_height : ℚ) * img_width / img_height) = 0
            then ⟨window_width, window_height⟩
            else ⟨floatToU32 ((window_height : ℚ) * img_width / img_height),
                  window_height⟩) ∧
      ((window_width : ℚ) / window_height < (img_width : ℚ) / img_height →
        calculate_max_buffer_size window_width window_height ⟨img_width, img_height⟩
          = if floatToU32 ((window_width : ℚ) * img_height / img_width) = 0
            then ⟨window_width, window_height⟩
            else ⟨window_width,
                  floatToU32 ((window_width : ℚ) * img_height / img_width)⟩) ∧
      ((img_width : ℚ) / img_height = (window_width : ℚ) / window_height →
        calculate_max_buffer_size window_width window_height ⟨img_width, img_height⟩
          = ⟨window_width, window_height⟩))) := by
  have harg1 : (img_width : ℚ) / img_height * window_height
      = (window_height : ℚ) * img_width / img_height := by ring
  have harg2 : (img_height : ℚ) / img_width * window_width
      = (window_width : ℚ) * img_height / img_width := by ring
  refine ⟨fun h => ?_, fun hiw hih => ⟨fun hlt => ?_, fun hgt => ?_, fun heq => ?_⟩⟩
  · unfold calculate_max_buffer_size
    exact if_pos h
  · unfold calculate_max_buffer_size
    dsimp only
    rw [if_neg (by omega), if_pos hlt, harg1]
  · unfold calculate_max_buffer_size
    dsimp only
    rw [if_neg (by omega), if_neg (not_lt.mpr hgt.le), if_pos hgt, harg2]
  · unfold calculate_max_buffer_size
    dsimp only
    rw [if_neg (by omega), if_neg (by rw [heq]; exact lt_irrefl _),
      if_neg (by rw [heq]; exact lt_irrefl _)]

theorem c2_aspect_fit_witness :
    calculate_max_buffer_size 101 101 ⟨100, 50⟩ = ⟨101, 50⟩ := by
  have h := ((c2_aspect_fit 101 101 100 50 (by norm_num) (by norm_num)).2
      (by norm_num) (by norm_num)).2.1 (by norm_num)
  rw [h]
  norm_num [floatToU32]
  decide

/-- C4: for a pan offset with `|offset.x| < width` and
`|offset.y| < height`, panning returns an image of exactly the input
dimensions; independently per axis, a positive offset keeps
`[0, size − |offset|)` with `|offset|` transparent pixels padded on the
leading edge, and a non-positive offset keeps `[|offset|, size)` with
the padding on the trailing edge. -/
theorem c4_pan_geometry (img : Raster) (pd : PanningData)
    (hx : pd.pan_offset_x.natAbs < img.width) (hy : pd.pan_offset_y.natAbs < img.height) :
    (pan_img img pd).width = img.width ∧
    (pan_img img pd).height = img.height ∧
    ∀ x y, x < img.width → y < img.height →
      (pan_img img pd).pix x y =
        if (if 0 < pd.pan_offset_x then pd.pan_offset_x.natAbs ≤ x
            else x < img.width - pd.pan_offset_x.natAbs) ∧
           (if 0 < pd.pan_offset_y then pd.pan_offset_y.natAbs ≤ y
            else y < img.height - pd.pan_offset_y.natAbs) then
          img.pix
            (if 0 < pd.pan_offset_x then x - pd.pan_offset_x.natAbs
             else x + pd.pan_offset_x.natAbs)
            (if 0 < pd.pan_offset_y then y - pd.pan_offset_y.natAbs
             else y + pd.pan_offset_y.natAbs)
        else transparent := by
  unfold pan_img
  by_cases h0 : pd.pan_offset_x = 0 ∧ pd.pan_offset_y = 0
  · rw [if_pos h0]
    obtain ⟨e1, e2⟩ := h0
    refine ⟨rfl, rfl, fun x y hxw hyh => ?_⟩
    rw [e1, e2]
    simp [hxw, hyh]
  · rw [if_neg h0]
    refine ⟨?_, ?_, fun x y hxw hyh => ?_⟩ <;>
      by_cases hsx : 0 < pd.pan_offset_x <;> by_cases hsy : 0 < pd.pan_offset_y <;>
        simp only [pad_img_sides, fast_crop, hsx, hsy, if_true, if_false,
          Nat.add_zero, Nat.sub_zero, Nat.zero_le, true_and, eq_self_iff_true] <;>
      first
        | omega
        | (split_ifs <;> first | rfl | omega)

theorem c4_pan_geometry_witness :
    ((3 : ℤ).natAbs < 10 ∧ (-2 : ℤ).natAbs < 8) ∧
    (pan_img (whiteImg 10 8) ⟨true, 3, -2, 0⟩).width = 10 ∧
    (pan_img (whiteImg 10 8) ⟨true, 3, -2, 0⟩).height = 8 :=
  ⟨⟨by decide, by decide⟩,
    (c4_pan_geometry (whiteImg 10 8) ⟨true, 3, -2, 0⟩ (by decide) (by decide)).1,
    (c4_pan_geometry (whiteImg 10 8) ⟨true, 3, -2, 0⟩ (by decide) (by decide)).2.1⟩

/-- The truncating cast of a rational below `n` stays at most `n`. -/
theorem floatToU32_le_of_lt {q : ℚ} {n : ℕ} (h : q < n) : floatToU32 q ≤ n := by
  unfold floatToU32
  rw [Int.toNat_le]
  calc ⌊q⌋ ≤ ⌊(n : ℚ)⌋ := Int.floor_le_floor h.le
    _ = n := Int.floor_natCast n

/-- The aspect-fit result never exceeds the window in either
dimension (for a non-degenerate window). -/
theorem calculate_max_buffer_size_le (window_width window_height : ℕ) (img_size : Size)
    (hww : 0 < window_width) (hwh : 0 < window_height) :
    (calculate_max_buffer_size window_width window_height img_size).width ≤ window_width ∧
    (calculate_max_buffer_size window_width window_height img_size).height
      ≤ window_height := by
  have hwwq : (0 : ℚ) < window_width := by exact_mod_cast hww
  have hwhq : (0 : ℚ) < window_height := by exact_mod_cast hwh
  unfold calculate_max_buffer_size
  dsimp only
  split_ifs with h1 h2 h3 h4 h5
  · exact ⟨le_refl _, le_refl _⟩
  · exact ⟨le_refl _, le_refl _⟩
  · refine ⟨floatToU32_le_of_lt ?_, le_refl _⟩
    have := mul_lt_mul_of_pos_right h2 hwhq
    rwa [div_mul_cancel₀ _ (ne_of_gt hwhq)] at this
  · exact ⟨le_refl _, le_refl _⟩
  · refine ⟨le_refl _, floatToU32_le_of_lt ?_⟩
    have hiwq : (0 : ℚ) < img_size.width := by
      have : img_size.width ≠ 0 := by omega
      exact_mod_cast Nat.pos_of_ne_zero this
    have hihq : (0 : ℚ) < img_size.height := by
      have : img_size.height ≠ 0 := by omega
      exact_mod_cast Nat.pos_of_ne_zero this
    rw [div_mul_eq_mul_div, div_lt_iff₀ hiwq]
    rw [gt_iff_lt, div_lt_div_iff₀ hwhq hihq] at h4
    linarith
  · exact ⟨le_refl _, le_refl _⟩

/-- Letterboxing an image that fits the target restores exactly the
target dimensions. -/
theorem pad_img_dims (img : Raster) (s : Size) (hw : img.width ≤ s.width)
    (hh : img.height ≤ s.height) :
    (pad_img img s).width = s.width ∧ (pad_img img s).height = s.height := by
  unfold pad_img pad_img_sides u32_div_ceil
  dsimp only
  constructor <;> split_ifs <;> omega

/-- C1: with a non-degenerate window, the compositor composes its
stages in the claimed order — zoom then pan when the zoom level is
≤ 0, pan then zoom when it is > 0, followed by aspect fit,
nearest-neighbor resampling to the fitted size, and the transparent
letterbox pad — and the produced buffer has exactly the window's
dimensions. -/
theorem c1_pipeline_order (window : Size) (img : Raster) (pd : PanningData)
    (hw : window.width ≠ 0) (hh : window.height ≠ 0) :
    (pd.zoom_level ≤ 0 →
      composite window img pd =
        some (pad_img
          (fast_resize_photon_img (pan_img (zoom_img img pd) pd)
            (calculate_max_buffer_size window.width window.height
              ⟨(pan_img (zoom_img img pd) pd).width,
               (pan_img (zoom_img img pd) pd).height⟩))
          window)) ∧
    (0 < pd.zoom_level →
      composite window img pd =
        some (pad_img
          (fast_resize_photon_img (zoom_img (pan_img img pd) pd)
            (calculate_max_buffer_size window.width window.height
              ⟨(zoom_img (pan_img img pd) pd).width,
               (zoom_img (pan_img img pd) pd).height⟩))
          window)) ∧
    (∀ out, composite window img pd = some out →
      out.width = window.width ∧ out.height = window.height) := by
  have hguard : ¬(window.width = 0 ∨ window.height = 0) := by omega
  refine ⟨fun hz => ?_, fun hz => ?_, fun out hout => ?_⟩
  · unfold composite
    rw [if_neg hguard]
    dsimp only
    rw [if_pos hz]
  · unfold composite
    rw [if_neg hguard]
    dsimp only
    rw [if_neg (not_le.mpr hz)]
  · unfold composite at hout
    rw [if_neg hguard] at hout
    dsimp only at hout
    rw [← Option.some.inj hout]
    have hle := calculate_max_buffer_size_le window.width window.height
      ⟨(if pd.zoom_level ≤ 0 then pan_img (zoom_img img pd) pd
        else zoom_img (pan_img img pd) pd).width,
       (if pd.zoom_level ≤ 0 then pan_img (zoom_img img pd) pd
        else zoom_img (pan_img img pd) pd).height⟩ (by omega) (by omega)
    exact pad_img_dims _ window hle.1 hle.2

theorem c1_pipeline_order_witness :
    composite ⟨3, 3⟩ (whiteImg 2 2) pdZero =
      some (pad_img
        (fast_resize_photon_img (pan_img (zoom_img (whiteImg 2 2) pdZero) pdZero)
          (calculate_max_buffer_size 3 3
            ⟨(pan_img (zoom_img (whiteImg 2 2) pdZero) pdZero).width,
             (pan_img (zoom_img (whiteImg 2 2) pdZero) pdZero).height⟩))
        ⟨3, 3⟩) :=
  (c1_pipeline_order ⟨3, 3⟩ (whiteImg 2 2) pdZero (by decide) (by decide)).1 (by decide)

/-- C3: letterboxing an image that fits the window splits the
horizontal padding `ceil(total/2)` left / `floor(total/2)` right and
the vertical padding `ceil(total/2)` top / `floor(total/2)` bottom,
every padding pixel being fully transparent; concretely, compositing a
100×50 image into a 101×101 window with zero pan and zoom yields a
101×101 buffer whose rows 0–25 (26 rows, top) and 76–100 (25 rows,
bottom) are transparent padding. -/
theorem c3_letterbox (img : Raster) (new_size : Size)
    (hw : img.width ≤ new_size.width) (hh : img.height ≤ new_size.height) :
    ((pad_img img new_size).width = new_size.width ∧
      (pad_img img new_size).height = new_size.height) ∧
    pad_img img new_size =
      pad_img_sides img ((new_size.width - img.width + 1) / 2)
        ((new_size.width - img.width) / 2)
        ((new_size.height - img.height + 1) / 2)
        ((new_size.height - img.height) / 2) ∧
    (∀ x y,
      (pad_img img new_size).pix x y =
        if (new_size.width - img.width + 1) / 2 ≤ x ∧
           x < (new_size.width - img.width + 1) / 2 + img.width ∧
           (new_size.height - img.height + 1) / 2 ≤ y ∧
           y < (new_size.height - img.height + 1) / 2 + img.height then
          img.pix (x - (new_size.width - img.width + 1) / 2)
            (y - (new_size.height - img.height + 1) / 2)
        else transparent) ∧
    composite ⟨101, 101⟩ (whiteImg 100 50) pdZero =
      some ⟨101, 101, fun x y =>
        if x < 101 ∧ 26 ≤ y ∧ y < 76 then ⟨255, 255, 255, 255⟩ else transparent⟩ := by
  have hsplit : ∀ t : ℕ, (if t ≠ 0 then u32_div_ceil t 2 else 0) = (t + 1) / 2 := by
    intro t
    unfold u32_div_ceil
    split_ifs <;> omega
  have hsplit2 : ∀ t : ℕ, (if t ≠ 0 then t / 2 else 0) = t / 2 := by
    intro t
    split_ifs <;> omega
  have hA : pad_img img new_size =
      pad_img_sides img ((new_size.width - img.width + 1) / 2)
        ((new_size.width - img.width) / 2)
        ((new_size.height - img.height + 1) / 2)
        ((new_size.height - img.height) / 2) := by
    unfold pad_img
    dsimp only
    rw [hsplit, hsplit, hsplit2, hsplit2]
  refine ⟨pad_img_dims img new_size hw hh, hA, fun x y => ?_, ?_⟩
  · rw [hA]
    rfl
  · -- the concrete 100×50 into 101×101 composite
    have hz : zoom_img (whiteImg 100 50) pdZero = pad_img_sides (whiteImg 100 50) 0 0 0 0 := by
      unfold zoom_img
      norm_num [pdZero, whiteImg, floatToU32]
    have hp : pan_img (pad_img_sides (whiteImg 100 50) 0 0 0 0) pdZero
        = pad_img_sides (whiteImg 100 50) 0 0 0 0 := by
      unfold pan_img
      norm_num [pdZero]
    have hfit : calculate_max_buffer_size 101 101 ⟨100, 50⟩ = ⟨101, 50⟩ := by
      unfold calculate_max_buffer_size
      norm_num [floatToU32]
      decide
    unfold composite
    rw [if_neg (by decide)]
    dsimp only
    rw [if_pos (by decide : pdZero.zoom_level ≤ 0), hz, hp]
    have hdims : (⟨(pad_img_sides (whiteImg 100 50) 0 0 0 0).width,
        (pad_img_sides (whiteImg 100 50) 0 0 0 0).height⟩ : Size) = ⟨100, 50⟩ := by
      unfold pad_img_sides whiteImg
      norm_num
    rw [hdims, hfit]
    rw [Option.some.injEq]
    apply Raster.ext
    · rfl
    · rfl
    · funext x y
      show (pad_img (fast_resize_photon_img (pad_img_sides (whiteImg 100 50) 0 0 0 0)
          ⟨101, 50⟩) ⟨101, 101⟩).pix x y = _
      unfold pad_img pad_img_sides fast_resize_photon_img u32_div_ceil whiteImg
      norm_num
      split_ifs <;> first | rfl | omega

theorem c3_letterbox_witness :
    ((whiteImg 2 1).width ≤ 4 ∧ (whiteImg 2 1).height ≤ 3) ∧
    (pad_img (whiteImg 2 1) ⟨4, 3⟩).width = 4 ∧
    (pad_img (whiteImg 2 1) ⟨4, 3⟩).height = 3 :=
  ⟨⟨by decide, by decide⟩,
    (c3_letterbox (whiteImg 2 1) ⟨4, 3⟩ (by decide) (by decide)).1.1,
    (c3_letterbox (whiteImg 2 1) ⟨4, 3⟩ (by decide) (by decide)).1.2⟩

/-- Kept width of the live zoom-in crop (the amended C6 policy): the
dominant axis keeps `size − size × crop_ratio` with
`crop_ratio = 0.8 × level/10`; the other axis follows the aspect. -/
def zoom_in_kept_width (img : Raster) (level : ℤ) : ℚ :=
  if 1 ≤ (img.width : ℚ) / (img.height : ℚ) then
    ((img.height : ℚ) - (img.height : ℚ) * (0.8 * ((level : ℚ) / 10))) *
      ((img.width : ℚ) / (img.height : ℚ))
  else (img.width : ℚ) - (img.width : ℚ) * (0.8 * ((level : ℚ) / 10))

/-- Kept height of the live zoom-in crop (see `zoom_in_kept_width`). -/
def zoom_in_kept_height (img : Raster) (level : ℤ) : ℚ :=
  if 1 ≤ (img.width : ℚ) / (img.height : ℚ) then
    (img.height : ℚ) - (img.height : ℚ) * (0.8 * ((level : ℚ) / 10))
  else ((img.width : ℚ) - (img.width : ℚ) * (0.8 * ((level : ℚ) / 10))) /
    ((img.width : ℚ) / (img.height : ℚ))

/-- Left edge of the centered zoom-in crop, clamped at 0. -/
def zoom_in_x0 (img : Raster) (level : ℤ) : ℚ :=
  max ((img.width : ℚ) / 2 - zoom_in_kept_width img level / 2) 0

/-- Top edge of the centered zoom-in crop, clamped at 0. -/
def zoom_in_y0 (img : Raster) (level : ℤ) : ℚ :=
  max ((img.height : ℚ) / 2 - zoom_in_kept_height img level / 2) 0

/-- Right edge of the centered zoom-in crop, clamped at the width. -/
def zoom_in_x1 (img : Raster) (level : ℤ) : ℚ :=
  min (zoom_in_x0 img level + zoom_in_kept_width img level) ((img.width : ℚ))

/-- Bottom edge of the centered zoom-in crop, clamped at the height. -/
def zoom_in_y1 (img : Raster) (level : ℤ) : ℚ :=
  min (zoom_in_y0 img level + zoom_in_kept_height img level) ((img.height : ℚ))

/-- The zoom-in crop policy the source actually ships (the amended
C6 claim): the centered aspect-preserving area-ratio crop region with
truncated corners. -/
def zoom_in_crop_spec (img : Raster) (level : ℤ) : Raster :=
  fast_crop img (floatToU32 (zoom_in_x1 img level)) (floatToU32 (zoom_in_y1 img level))
    (floatToU32 (zoom_in_x0 img level)) (floatToU32 (zoom_in_y0 img level))

/-- C6 (corrected): for zoom levels in 1..=10 the zoom-in path is the
centered aspect-preserving area-ratio crop (`crop_ratio = 0.8 ×
level/10`), not a symmetric crop of `|level| × zoom_unit / 2` pixels
from all four sides. -/
theorem c6_zoom_in_policy (img : Raster) (pd : PanningData)
    (h1 : 1 ≤ pd.zoom_level) (_h10 : pd.zoom_level ≤ 10) :
    zoom_img img pd = zoom_in_crop_spec img pd.zoom_level := by
  unfold zoom_img zoom_in_crop_spec zoom_in_x1 zoom_in_y1 zoom_in_x0 zoom_in_y0
    zoom_in_kept_width zoom_in_kept_height
  rw [if_pos (show (0 : ℤ) < pd.zoom_level by omega)]

theorem c6_zoom_in_policy_counterexample :
    (zoom_img (whiteImg 10 10) (pdz 1)).width = 9 ∧
    10 - 2 * ((1 : ℤ).natAbs * (min 10 10 / 10) / 2) = 10 := by
  constructor
  · unfold zoom_img pdz whiteImg fast_crop
    norm_num [max_def, min_def, floatToU32]
    decide
  · decide

theorem c6_zoom_in_policy_witness :
    zoom_img (whiteImg 10 10) (pdz 1) = zoom_in_crop_spec (whiteImg 10 10) 1 :=
  c6_zoom_in_policy (whiteImg 10 10) (pdz 1) (by decide) (by decide)

/-- The zoom-out padding per side as the source computes it (the
amended C7 claim): `|level| × (min(width,height)/10) / 2` in exact
(float-modelled) arithmetic, truncated to an integer once at the end —
not with `zoom_unit` already truncated by integer division. -/
def zoom_out_pad_spec (img : Raster) (level : ℤ) : ℕ :=
  floatToU32 ((level.natAbs : ℚ) * (((min img.width img.height : ℕ) : ℚ) / 10) / 2)

/-- C7 (corrected): for zoom levels in −10..=−1 zooming out pads
exactly `zoom_out_pad_spec` fully-transparent pixels on each of the
four sides, growing each axis by twice that amount; the per-side
amount is the truncation of `|level| × (min(width,height)/10) / 2`
computed with exact division by 10 (the source's f32 arithmetic), not
with integer division. -/
theorem c7_zoom_out_pad (img : Raster) (pd : PanningData)
    (h1 : pd.zoom_level ≤ -1) (_h10 : -10 ≤ pd.zoom_level) :
    (zoom_img img pd).width = img.width + 2 * zoom_out_pad_spec img pd.zoom_level ∧
    (zoom_img img pd).height = img.height + 2 * zoom_out_pad_spec img pd.zoom_level ∧
    ∀ x y, (zoom_img img pd).pix x y =
      if zoom_out_pad_spec img pd.zoom_level ≤ x ∧
         x < zoom_out_pad_spec img pd.zoom_level + img.width ∧
         zoom_out_pad_spec img pd.zoom_level ≤ y ∧
         y < zoom_out_pad_spec img pd.zoom_level + img.height then
        img.pix (x - zoom_out_pad_spec img pd.zoom_level)
          (y - zoom_out_pad_spec img pd.zoom_level)
      else transparent := by
  have hmult : ((min img.width img.height : ℕ) : ℚ) / 10
      = (if img.height > img.width then (img.width : ℚ) / 10
         else (img.height : ℚ) / 10) := by
    split_ifs with hcmp
    · rw [Nat.min_eq_left (by omega)]
    · rw [Nat.min_eq_right (by omega)]
  have hpad : zoom_out_pad_spec img pd.zoom_level
      = floatToU32 ((pd.zoom_level.natAbs : ℚ) *
          (if img.height > img.width then (img.width : ℚ) / 10
           else (img.height : ℚ) / 10) / 2) := by
    unfold zoom_out_pad_spec
    rw [hmult]
  unfold zoom_img
  rw [if_neg (show ¬(0 : ℤ) < pd.zoom_level by omega)]
  dsimp only
  rw [hpad]
  exact ⟨by dsimp only [pad_img_sides]; omega, by dsimp only [pad_img_sides]; omega,
    fun x y => rfl⟩

theorem c7_zoom_out_pad_counterexample :
    (zoom_img (whiteImg 19 19) (pdz (-3))).width = 23 ∧
    19 + 2 * ((-3 : ℤ).natAbs * (min 19 19 / 10) / 2) = 21 := by
  constructor
  · unfold zoom_img pdz whiteImg pad_img_sides
    norm_num [floatToU32]
    decide
  · decide

theorem c7_zoom_out_pad_witness :
    (zoom_img (whiteImg 19 19) (pdz (-3))).width
      = 19 + 2 * zoom_out_pad_spec (whiteImg 19 19) (-3) :=
  (c7_zoom_out_pad (whiteImg 19 19) (pdz (-3)) (by decide) (by decide)).1

/-- The truncating cast is monotone. -/
theorem floatToU32_mono {q r : ℚ} (h : q ≤ r) : floatToU32 q ≤ floatToU32 r := by
  unfold floatToU32
  exact Int.toNat_le_toNat (Int.floor_le_floor h)

/-- The truncating cast of a rational at most `n` stays at most `n`. -/
theorem floatToU32_le {q : ℚ} {n : ℕ} (h : q ≤ n) : floatToU32 q ≤ n := by
  unfold floatToU32
  rw [Int.toNat_le]
  calc ⌊q⌋ ≤ ⌊(n : ℚ)⌋ := Int.floor_le_floor h
    _ = n := Int.floor_natCast n

/-- A `fast_crop` whose rational corners are ordered and bounded by the
image extracts an in-bounds region: the truncated corners do not
underflow the subtraction, the output is no larger than the input, and
every output pixel is read from inside the input. -/
theorem fast_crop_bounds (img : Raster) (x1 y1 x0 y0 : ℚ)
    (hx1 : x1 ≤ (img.width : ℚ)) (hy1 : y1 ≤ (img.height : ℚ))
    (hx01 : x0 ≤ x1) (hy01 : y0 ≤ y1) :
    floatToU32 x0 ≤ floatToU32 x1 ∧
    floatToU32 y0 ≤ floatToU32 y1 ∧
    (fast_crop img (floatToU32 x1) (floatToU32 y1) (floatToU32 x0)
        (floatToU32 y0)).width ≤ img.width ∧
    (fast_crop img (floatToU32 x1) (floatToU32 y1) (floatToU32 x0)
        (floatToU32 y0)).height ≤ img.height ∧
    ∀ x y,
      x < (fast_crop img (floatToU32 x1) (floatToU32 y1) (floatToU32 x0)
          (floatToU32 y0)).width →
      y < (fast_crop img (floatToU32 x1) (floatToU32 y1) (floatToU32 x0)
          (floatToU32 y0)).height →
      ∃ sx sy, sx < img.width ∧ sy < img.height ∧
        (fast_crop img (floatToU32 x1) (floatToU32 y1) (floatToU32 x0)
          (floatToU32 y0)).pix x y = img.pix sx sy := by
  have hfx1 : floatToU32 x1 ≤ img.width := floatToU32_le hx1
  have hfy1 : floatToU32 y1 ≤ img.height := floatToU32_le hy1
  refine ⟨floatToU32_mono hx01, floatToU32_mono hy01, ?_, ?_,
    fun x y hx hy => ⟨x + floatToU32 x0, y + floatToU32 y0, ?_, ?_, rfl⟩⟩
  · dsimp only [fast_crop]
    omega
  · dsimp only [fast_crop]
    omega
  · dsimp only [fast_crop] at hx
    omega
  · dsimp only [fast_crop] at hy
    omega

/-- C9 (corrected): for an image with positive dimensions and a zoom
level in 1..=10, the zoom-in crop region is clamped within the image
bounds and its truncated corners never underflow the size subtraction;
the output is no larger than the input and every output pixel comes
from inside the input — but the crop may be *empty* (the code has no
1×1 minimum clamp). -/
theorem c9_zoom_in_bounds (img : Raster) (pd : PanningData)
    (hw : 0 < img.width) (hh : 0 < img.height)
    (hl1 : 1 ≤ pd.zoom_level) (hl10 : pd.zoom_level ≤ 10) :
    floatToU32 (zoom_in_x0 img pd.zoom_level)
        ≤ floatToU32 (zoom_in_x1 img pd.zoom_level) ∧
    floatToU32 (zoom_in_y0 img pd.zoom_level)
        ≤ floatToU32 (zoom_in_y1 img pd.zoom_level) ∧
    (zoom_img img pd).width ≤ img.width ∧
    (zoom_img img pd).height ≤ img.height ∧
    ∀ x y, x < (zoom_img img pd).width → y < (zoom_img img pd).height →
      ∃ sx sy, sx < img.width ∧ sy < img.height ∧
        (zoom_img img pd).pix x y = img.pix sx sy := by
  have hWpos : (0 : ℚ) < img.width := by exact_mod_cast hw
  have hHpos : (0 : ℚ) < img.height := by exact_mod_cast hh
  have hl1Q : (1 : ℚ) ≤ (pd.zoom_level : ℚ) := by exact_mod_cast hl1
  have hl10Q : (pd.zoom_level : ℚ) ≤ 10 := by exact_mod_cast hl10
  have hcr0 : (0 : ℚ) ≤ 0.8 * ((pd.zoom_level : ℚ) / 10) := by nlinarith
  have hcr1 : (0.8 : ℚ) * ((pd.zoom_level : ℚ) / 10) ≤ 1 := by nlinarith
  have hkw0 : 0 ≤ zoom_in_kept_width img pd.zoom_level := by
    unfold zoom_in_kept_width
    split_ifs with hasp
    · have h1 : (img.height : ℚ) * (0.8 * ((pd.zoom_level : ℚ) / 10))
          ≤ (img.height : ℚ) * 1 := mul_le_mul_of_nonneg_left hcr1 hHpos.le
      have h2 : (0 : ℚ) ≤ (img.width : ℚ) / (img.height : ℚ) :=
        div_nonneg hWpos.le hHpos.le
      nlinarith
    · nlinarith [mul_le_mul_of_nonneg_left hcr1 hWpos.le]
  have hkh0 : 0 ≤ zoom_in_kept_height img pd.zoom_level := by
    unfold zoom_in_kept_height
    split_ifs with hasp
    · nlinarith [mul_le_mul_of_nonneg_left hcr1 hHpos.le]
    · have h1 : (0 : ℚ) ≤ (img.width : ℚ) - (img.width : ℚ) *
          (0.8 * ((pd.zoom_level : ℚ) / 10)) := by
        nlinarith [mul_le_mul_of_nonneg_left hcr1 hWpos.le]
      exact div_nonneg h1 (div_nonneg hWpos.le hHpos.le)
  have hx01 : zoom_in_x0 img pd.zoom_level ≤ zoom_in_x1 img pd.zoom_level := by
    unfold zoom_in_x1
    refine le_min (by linarith) ?_
    unfold zoom_in_x0
    exact max_le (by linarith) hWpos.le
  have hy01 : zoom_in_y0 img pd.zoom_level ≤ zoom_in_y1 img pd.zoom_level := by
    unfold zoom_in_y1
    refine le_min (by linarith) ?_
    unfold zoom_in_y0
    exact max_le (by linarith) hHpos.le
  have hx1W : zoom_in_x1 img pd.zoom_level ≤ (img.width : ℚ) := min_le_right _ _
  have hy1H : zoom_in_y1 img pd.zoom_level ≤ (img.height : ℚ) := min_le_right _ _
  have hb := fast_crop_bounds img (zoom_in_x1 img pd.zoom_level)
    (zoom_in_y1 img pd.zoom_level) (zoom_in_x0 img pd.zoom_level)
    (zoom_in_y0 img pd.zoom_level) hx1W hy1H hx01 hy01
  have hzeq : zoom_img img pd = zoom_in_crop_spec img pd.zoom_level := by
    unfold zoom_img zoom_in_crop_spec zoom_in_x1 zoom_in_y1 zoom_in_x0 zoom_in_y0
      zoom_in_kept_width zoom_in_kept_height
    rw [if_pos (show (0 : ℤ) < pd.zoom_level by omega)]
  rw [hzeq]
  exact hb

theorem c9_zoom_in_bounds_counterexample :
    (zoom_img (whiteImg 1 1) (pdz 10)).width = 0 ∧
    (zoom_img (whiteImg 1 1) (pdz 10)).height = 0 := by
  constructor <;>
  · unfold zoom_img pdz whiteImg fast_crop
    norm_num [max_def, min_def, floatToU32]

theorem c9_zoom_in_bounds_witness :
    (0 < 5 ∧ 0 < 4 ∧ (1 : ℤ) ≤ 2 ∧ (2 : ℤ) ≤ 10) ∧
    (zoom_img (whiteImg 5 4) (pdz 2)).width ≤ 5 ∧
    (zoom_img (whiteImg 5 4) (pdz 2)).height ≤ 4 :=
  ⟨⟨by decide, by decide, by decide, by decide⟩,
    (c9_zoom_in_bounds (whiteImg 5 4) (pdz 2) (by decide) (by decide)
      (by decide) (by decide)).2.2.1,
    (c9_zoom_in_bounds (whiteImg 5 4) (pdz 2) (by decide) (by decide)
      (by decide) (by decide)).2.2.2.1⟩

end Luminix
